import Mathlib

/-!
# Verification of the ChatInterface event-orchestration logic

A shallow embedding of `gradio/chat_interface.py` (class `ChatInterface`):
the handler functions (`_clear_and_save_textbox`, `_display_input`,
`_submit_fn`, `_stream_fn`, `_api_submit_fn`, `_api_stream_fn`,
`_examples_fn`, `_examples_stream_fn`, `_delete_prev_fn`), the event chains
wired in `_setup_events`, the stop/cancel visibility controller of
`_setup_stop_events`, and — for the aliasing/mutation claims — a small
heap model of Python lists.

Conventions:
* A chat turn `[user_message, bot_message]` becomes `String × Option String`
  (`none` is Python `None`, the pending-turn marker).
* A Python generator of strings is embedded as the finite list of the values
  it yields; `next`/`StopIteration` on an empty generator corresponds to
  matching the empty list.
* Python's in-place list mutation inside one handler is embedded by
  returning the new list value; the event chains thread those values
  explicitly through a `ChatState` record, mirroring the
  `inputs`/`outputs` wiring of `_setup_events`.
-/

namespace ChatInterface

/-- One chat turn `[user_message, bot_message]`; the bot message is `none`
while the turn is pending. -/
abbrev Turn := String × Option String

/-- The chat history: an ordered list of turns. -/
abbrev History := List Turn

/-- A non-streaming response function `fn(message, history) -> str`. -/
abbrev RespFn := String → History → String

/-- A streaming response function: a generator function whose generator,
called on `(message, history)`, yields the given finite list of strings. -/
abbrev StreamFn := String → History → List String

/-- `_clear_and_save_textbox(self, message)`: returns `("", message)` —
clears the textbox and stages the message into `saved_input`. -/
def clear_and_save_textbox (message : String) : String × String :=
  ("", message)

/-- `_display_input(self, message, history)`: appends the pending turn
`[message, None]` to the history and returns the history twice
(once for the chatbot view, once for the state). -/
def display_input (message : String) (history : History) : History × History :=
  let h := history ++ [(message, none)]
  (h, h)

/-- `_submit_fn(self, message, history_with_input)`: drops the pending turn
(`history_with_input[:-1]`), calls `fn(message, history)`, appends
`[message, response]`, and returns the history twice. -/
def submit_fn (fn : RespFn) (message : String) (history_with_input : History) :
    History × History :=
  let history := history_with_input.dropLast
  let response := fn message history
  let h := history ++ [(message, some response)]
  (h, h)

/-- `_stream_fn(self, message, history_with_input)`: drops the pending turn,
obtains the generator `fn(message, history)`; if the first `next` raises
`StopIteration` (empty generator) it yields the single null update
`history + [[message, None]]`, otherwise it yields
`history + [[message, response]]` for the first and every later response. -/
def stream_fn (fn : StreamFn) (message : String) (history_with_input : History) :
    List (History × History) :=
  let history := history_with_input.dropLast
  match fn message history with
  | [] =>
      let update := history ++ [(message, none)]
      [(update, update)]
  | first_response :: rest =>
      let update := history ++ [(message, some first_response)]
      (update, update) ::
        rest.map (fun response =>
          let u := history ++ [(message, some response)]
          (u, u))

/-- `_api_submit_fn(self, message, history)`: calls `fn(message, history)`,
appends `[message, response]` to the history, and returns
`(response, history)`. -/
def api_submit_fn (fn : RespFn) (message : String) (history : History) :
    String × History :=
  let response := fn message history
  let h := history ++ [(message, some response)]
  (response, h)

/-- `_api_stream_fn(self, message, history)`: obtains the generator
`fn(message, history)`; the empty generator yields the single pair
`(None, history + [[message, None]])`, otherwise each response `r` yields
`(r, history + [[message, r]])`. -/
def api_stream_fn (fn : StreamFn) (message : String) (history : History) :
    List (Option String × History) :=
  match fn message history with
  | [] => [(none, history ++ [(message, none)])]
  | first_response :: rest =>
      (some first_response, history ++ [(message, some first_response)]) ::
        rest.map (fun response =>
          (some response, history ++ [(message, some response)]))

/-- `_examples_fn(self, message)`: returns `[[message, fn(message, [])]]`. -/
def examples_fn (fn : RespFn) (message : String) : History :=
  [(message, some (fn message []))]

/-- `_examples_stream_fn(self, message)`: yields `[[message, response]]`
for each response of `fn(message, [])` (no empty-generator fallback). -/
def examples_stream_fn (fn : StreamFn) (message : String) : List History :=
  (fn message []).map (fun response => [(message, some response)])

/-- `_delete_prev_fn(self, history)`: pops the last turn (an `IndexError`
on the empty history is caught and the message defaults to `""`), and
returns `(history, message or "", history)`. On `String` values Python's
`message or ""` is the identity (`"" or ""` is `""`). -/
def delete_prev_fn (history : History) : History × String × History :=
  match history.getLast? with
  | some (message, _) =>
      let h := history.dropLast
      (h, message, h)
  | none => (history, "", history)

/-- The session components the event chains of `_setup_events` read and
write: the textbox value, the `saved_input` state (a `State()` initialised
to `None`, hence an `Option`), the chatbot view, and the `chatbot_state`. -/
structure ChatState where
  textbox : String
  saved_input : Option String
  chatbot : History
  chatbot_state : History
deriving DecidableEq

/-- The submit chain of `_setup_events` (bound to both `textbox.submit` and
`submit_btn.click`): `_clear_and_save_textbox` then `_display_input` then
`_submit_fn`, each step's outputs written back before the next step reads
them. After step 1 `saved_input` holds `some msg`, so steps 2 and 3 receive
the staged message `msg`. -/
def submit_chain (fn : RespFn) (s : ChatState) : ChatState :=
  let p := clear_and_save_textbox s.textbox
  let s1 : ChatState := { s with textbox := p.1, saved_input := some p.2 }
  let d := display_input p.2 s1.chatbot_state
  let s2 : ChatState := { s1 with chatbot := d.1, chatbot_state := d.2 }
  let r := submit_fn fn p.2 s2.chatbot_state
  { s2 with chatbot := r.1, chatbot_state := r.2 }

/-- The retry chain of `_setup_events` (non-streaming `fn`):
`_delete_prev_fn` then `_display_input` then `_submit_fn`. -/
def retry_chain (fn : RespFn) (s : ChatState) : ChatState :=
  let d := delete_prev_fn s.chatbot_state
  let s1 : ChatState :=
    { s with chatbot := d.1, saved_input := some d.2.1, chatbot_state := d.2.2 }
  let p := display_input d.2.1 s1.chatbot_state
  let s2 : ChatState := { s1 with chatbot := p.1, chatbot_state := p.2 }
  let r := submit_fn fn d.2.1 s2.chatbot_state
  { s2 with chatbot := r.1, chatbot_state := r.2 }

/-- The retry chain when `fn` is a generator function: the final step is
`_stream_fn`, so the chain emits one updated state per yielded update. -/
def retry_stream_chain (fn : StreamFn) (s : ChatState) : List ChatState :=
  let d := delete_prev_fn s.chatbot_state
  let s1 : ChatState :=
    { s with chatbot := d.1, saved_input := some d.2.1, chatbot_state := d.2.2 }
  let p := display_input d.2.1 s1.chatbot_state
  let s2 : ChatState := { s1 with chatbot := p.1, chatbot_state := p.2 }
  (stream_fn fn d.2.1 s2.chatbot_state).map
    (fun u => { s2 with chatbot := u.1, chatbot_state := u.2 })

/-- The undo chain of `_setup_events`: `_delete_prev_fn` then
`lambda x: x` copying `saved_input` into the textbox. -/
def undo_chain (s : ChatState) : ChatState :=
  let d := delete_prev_fn s.chatbot_state
  let s1 : ChatState :=
    { s with chatbot := d.1, saved_input := some d.2.1, chatbot_state := d.2.2 }
  { s1 with textbox := d.2.1 }

/-- The clear binding's handler `lambda: ([], [], None)`, written to
`[chatbot, chatbot_state, saved_input]`. -/
def clear_fn : History × History × Option String :=
  ([], [], none)

/-- The clear chain of `_setup_events`: one step, no response function. -/
def clear_chain (s : ChatState) : ChatState :=
  { s with
    chatbot := clear_fn.1
    chatbot_state := clear_fn.2.1
    saved_input := clear_fn.2.2 }

/-! ## The stop/cancel controller of `_setup_stop_events`

Active only when a stop button exists and `fn` is a generator function.
The visibility pairs below are `(submit_btn.visible, stop_btn.visible)`,
read off the `Button.update(visible=...)` lambdas. -/

/-- The handler bound to the triggering event: `Button.update(visible=False)`
for the submit button, `Button.update(visible=True)` for the stop button. -/
def stop_trigger_vis : Bool × Bool := (false, true)

/-- The handler chained after the response chain (`event_to_cancel.then`):
`Button.update(visible=True)` for submit, `Button.update(visible=False)`
for stop. -/
def chain_complete_vis : Bool × Bool := (true, false)

/-- Visibility at construction: the submit button is rendered visible and
the stop button is rendered with `visible=False`. -/
def construction_vis : Bool × Bool := (true, false)

/-- Modelled from the spec: the event framework (`gradio.events`, whose code
is not among these sources) runs a chain's `.then` continuation when the
chain is cancelled via `cancels=`, and per the spec clicking the stop
control "must itself revert visibility as part of the cancellation
completing" — so the stop click's exit applies the same continuation
update `chain_complete_vis` that natural completion applies. -/
def stop_click_vis : Bool × Bool := chain_complete_vis

/-- The phase of an in-flight response, `Idle → Responding → Idle`. -/
inductive StopPhase where
  | idle : StopPhase
  | responding : StopPhase
deriving DecidableEq

/-- The events the stop controller reacts to: the triggering event firing,
the response chain completing naturally, and the stop button click. -/
inductive StopEvt where
  | submit_trigger : StopEvt
  | chain_complete : StopEvt
  | stop_click : StopEvt
deriving DecidableEq

/-- The stop controller's transition function: phase plus the current
`(submit, stop)` visibility. -/
def stop_controller_step (_s : StopPhase × (Bool × Bool)) (e : StopEvt) :
    StopPhase × (Bool × Bool) :=
  match e with
  | .submit_trigger => (.responding, stop_trigger_vis)
  | .chain_complete => (.idle, chain_complete_vis)
  | .stop_click => (.idle, stop_click_vis)

/-! ## A heap model of the Python lists passed to the API adapters

Python histories are mutable list objects; to state the aliasing facts
(`_api_submit_fn` appends to the caller's list in place and returns the
very same object, while `_api_stream_fn` and `_stream_fn` build each
emitted history as a fresh `history + [[...]]` list) we give each list
object a location in a heap.  `list.append`/`list.pop` mutate a cell in
place, slicing (`[:-1]`) and concatenation (`+`) allocate fresh cells. -/

/-- A Python object identity for a history list. -/
abbrev Loc := Nat

/-- The heap: cell `i` holds the contents of the list object at location
`i`; the next fresh location is `cells.length`. -/
structure PyHeap where
  cells : List History
deriving DecidableEq

/-- Read the list object at a location. -/
def PyHeap.get (h : PyHeap) (l : Loc) : History :=
  h.cells.getD l []

/-- Overwrite the list object at a location (in-place mutation). -/
def PyHeap.set (h : PyHeap) (l : Loc) (v : History) : PyHeap :=
  ⟨h.cells.set l v⟩

/-- Allocate a fresh list object. -/
def PyHeap.alloc (h : PyHeap) (v : History) : Loc × PyHeap :=
  (h.cells.length, ⟨h.cells ++ [v]⟩)

/-- `history.append(turn)`: in-place mutation of the object at `l`. -/
def PyHeap.push (h : PyHeap) (l : Loc) (t : Turn) : PyHeap :=
  h.set l (h.get l ++ [t])

/-- `_api_submit_fn` over the heap: `history.append([message, response])`
mutates the caller's list at `l` in place, and the function returns that
same object `l`. -/
def api_submit_fn_heap (fn : RespFn) (message : String) (l : Loc) (h : PyHeap) :
    (String × Loc) × PyHeap :=
  let response := fn message (h.get l)
  let h2 := h.push l (message, some response)
  ((response, l), h2)

/-- Run the yields of `_api_stream_fn`: each `history + [[message, r]]`
reads the caller's list at `l` and allocates a fresh list object. -/
def api_stream_yields (message : String) (l : Loc) :
    List (Option String) → PyHeap → List (Option String × Loc) × PyHeap
  | [], h => ([], h)
  | r :: rs, h =>
      let a := h.alloc (h.get l ++ [(message, r)])
      let ys := api_stream_yields message l rs a.2
      ((r, a.1) :: ys.1, ys.2)

/-- `_api_stream_fn` over the heap: the generator's outputs (with the
`StopIteration` fallback to a single `None`) are each paired with a freshly
allocated `history + [[message, r]]`; the caller's list is never mutated. -/
def api_stream_fn_heap (fn : StreamFn) (message : String) (l : Loc) (h : PyHeap) :
    List (Option String × Loc) × PyHeap :=
  let outs : List (Option String) :=
    match fn message (h.get l) with
    | [] => [none]
    | first_response :: rest => some first_response :: rest.map some
  api_stream_yields message l outs h

/-- Run the yields of `_stream_fn`: each update `history + [[message, r]]`
reads the local copy at `lh` and allocates a fresh object, yielded twice
(`yield update, update` — the same object in both positions). -/
def stream_updates (message : String) (lh : Loc) :
    List (Option String) → PyHeap → List (Loc × Loc) × PyHeap
  | [], h => ([], h)
  | r :: rs, h =>
      let a := h.alloc (h.get lh ++ [(message, r)])
      let ys := stream_updates message lh rs a.2
      ((a.1, a.1) :: ys.1, ys.2)

/-- `_stream_fn` over the heap: `history = history_with_input[:-1]` slices
the argument into a fresh local copy, and every update is a fresh
`history + [[message, r]]`; the caller's `history_with_input` object at `l`
is never mutated. -/
def stream_fn_heap (fn : StreamFn) (message : String) (l : Loc) (h : PyHeap) :
    List (Loc × Loc) × PyHeap :=
  let a := h.alloc ((h.get l).dropLast)
  let outs : List (Option String) :=
    match fn message (a.2.get a.1) with
    | [] => [none]
    | first_response :: rest => some first_response :: rest.map some
  stream_updates message a.1 outs a.2

end ChatInterface

namespace ChatInterface

lemma dropLast_snoc (H : History) (t : Turn) : (H ++ [t]).dropLast = H := by
  simp

lemma getLast?_snoc (H : History) (t : Turn) : (H ++ [t]).getLast? = some t := by
  simp

lemma PyHeap.get_set_self (h : PyHeap) (l : Loc) (v : History)
    (hl : l < h.cells.length) : (h.set l v).get l = v := by
  unfold PyHeap.set PyHeap.get
  rw [List.getD_eq_getElem?_getD, List.getElem?_set_eq_of_lt _ hl]
  rfl

lemma PyHeap.get_alloc_of_lt (h : PyHeap) (v : History) (l : Loc)
    (hl : l < h.cells.length) : (h.alloc v).2.get l = h.get l := by
  unfold PyHeap.alloc PyHeap.get
  exact List.getD_append _ _ _ _ hl

lemma PyHeap.length_alloc (h : PyHeap) (v : History) :
    (h.alloc v).2.cells.length = h.cells.length + 1 := by
  simp [PyHeap.alloc]

lemma api_stream_yields_get (m : String) (lh : Loc)
    (outs : List (Option String)) :
    ∀ (h : PyHeap) (l : Loc), l < h.cells.length →
      (api_stream_yields m lh outs h).2.get l = h.get l := by
  induction outs with
  | nil => intro h l _; rfl
  | cons r rs ih =>
      intro h l hl
      have h1 : l < ((h.alloc (h.get lh ++ [(m, r)])).2).cells.length := by
        rw [PyHeap.length_alloc]; exact Nat.lt_succ_of_lt hl
      simp only [api_stream_yields]
      rw [ih _ _ h1, PyHeap.get_alloc_of_lt _ _ _ hl]

lemma api_stream_yields_fresh (m : String) (lh : Loc)
    (outs : List (Option String)) (h : PyHeap) :
    ∀ p ∈ (api_stream_yields m lh outs h).1, h.cells.length ≤ p.2 := by
  induction outs generalizing h with
  | nil => intro p hp; cases hp
  | cons r rs ih =>
      intro p hp
      simp only [api_stream_yields, List.mem_cons] at hp
      rcases hp with rfl | hp
      · exact Nat.le_refl _
      · have h2 := ih _ p hp
        rw [PyHeap.length_alloc] at h2
        exact Nat.le_of_succ_le h2

lemma stream_updates_get (m : String) (lh : Loc)
    (outs : List (Option String)) :
    ∀ (h : PyHeap) (l : Loc), l < h.cells.length →
      (stream_updates m lh outs h).2.get l = h.get l := by
  induction outs with
  | nil => intro h l _; rfl
  | cons r rs ih =>
      intro h l hl
      have h1 : l < ((h.alloc (h.get lh ++ [(m, r)])).2).cells.length := by
        rw [PyHeap.length_alloc]; exact Nat.lt_succ_of_lt hl
      simp only [stream_updates]
      rw [ih _ _ h1, PyHeap.get_alloc_of_lt _ _ _ hl]

lemma stream_updates_fresh (m : String) (lh : Loc)
    (outs : List (Option String)) (h : PyHeap) :
    ∀ p ∈ (stream_updates m lh outs h).1, h.cells.length ≤ p.1 ∧
      h.cells.length ≤ p.2 := by
  induction outs generalizing h with
  | nil => intro p hp; cases hp
  | cons r rs ih =>
      intro p hp
      simp only [stream_updates, List.mem_cons] at hp
      rcases hp with rfl | hp
      · exact ⟨Nat.le_refl _, Nat.le_refl _⟩
      · have h2 := ih _ p hp
        rw [PyHeap.length_alloc] at h2
        exact ⟨Nat.le_of_succ_le h2.1, Nat.le_of_succ_le h2.2⟩

/-- C1: for every non-streaming `fn`, message `m` and history `H`, the
submit chain (`_clear_and_save_textbox`, then `_display_input`, then
`_submit_fn`) on textbox content `m` and history `H` clears the textbox
and produces final history `H ++ [(m, fn m H)]` — in particular
`_submit_fn` calls `fn` on the history `H` without the pending turn that
`_display_input` appended; and for the echo function, submitting `"hi"` on
the empty history yields `[("hi", "hi")]`. -/
theorem submit_chain_spec (fn : RespFn) (m : String) (si : Option String)
    (cb : History) (H : History) :
    submit_chain fn ⟨m, si, cb, H⟩ =
      ⟨"", some m, H ++ [(m, some (fn m H))], H ++ [(m, some (fn m H))]⟩ ∧
    submit_chain (fun msg _ => msg) ⟨"hi", si, cb, []⟩ =
      ⟨"", some "hi", [("hi", some "hi")], [("hi", some "hi")]⟩ := by
  constructor
  · simp [submit_chain, clear_and_save_textbox, display_input, submit_fn,
      dropLast_snoc]
  · simp [submit_chain, clear_and_save_textbox, display_input, submit_fn]

/-- C2: for every streaming `fn` whose generator on `(m, H)` yields the
non-empty list `rs`, `_stream_fn` on message `m` and the
history-with-pending-turn `H ++ [(m, none)]` emits exactly `rs.length`
updates, the `i`-th being the pair `(H ++ [(m, rᵢ)], H ++ [(m, rᵢ)])`, and
every emitted history has length `H.length + 1`. -/
theorem stream_fn_spec (fn : StreamFn) (m : String) (H : History)
    (rs : List String) (hrs : fn m H = rs) (hne : rs ≠ []) :
    stream_fn fn m (H ++ [(m, none)]) =
      rs.map (fun r => (H ++ [(m, some r)], H ++ [(m, some r)])) ∧
    (stream_fn fn m (H ++ [(m, none)])).length = rs.length ∧
    (stream_fn fn m (H ++ [(m, none)])).all
      (fun p => p.1.length == H.length + 1 && p.2.length == H.length + 1) := by
  match rs, hne with
  | r :: rs', _ =>
    refine ⟨?_, ?_, ?_⟩ <;>
      simp [stream_fn, dropLast_snoc, hrs, List.all_map]

/-- Witness for `stream_fn_spec` at the generator yielding `["a", "b"]`. -/
theorem stream_fn_spec_witness :
    stream_fn (fun _ _ => ["a", "b"]) "hi" ([] ++ [("hi", none)]) =
      (["a", "b"]).map (fun r => ([] ++ [("hi", some r)], [] ++ [("hi", some r)])) :=
  (stream_fn_spec (fun _ _ => ["a", "b"]) "hi" [] ["a", "b"] rfl (by simp)).1

/-- C3: a streaming `fn` whose generator on `(m, H)` yields nothing makes
`_stream_fn` emit exactly the one update
`(H ++ [(m, none)], H ++ [(m, none)])` (the `StopIteration` from the empty
generator is absorbed), and makes `_api_stream_fn` emit exactly the one
pair `(none, H ++ [(m, none)])`. -/
theorem stream_fn_empty_spec (fn : StreamFn) (m : String) (H : History)
    (h : fn m H = []) :
    stream_fn fn m (H ++ [(m, none)]) =
      [(H ++ [(m, none)], H ++ [(m, none)])] ∧
    api_stream_fn fn m H = [(none, H ++ [(m, none)])] := by
  constructor
  · simp [stream_fn, dropLast_snoc, h]
  · simp [api_stream_fn, h]

/-- Witness for `stream_fn_empty_spec` at the empty generator. -/
theorem stream_fn_empty_spec_witness :
    stream_fn (fun _ _ => []) "hi" ([] ++ [("hi", none)]) =
      [([] ++ [("hi", none)], [] ++ [("hi", none)])] ∧
    api_stream_fn (fun _ _ => []) "hi" [] = [(none, [] ++ [("hi", none)])] :=
  stream_fn_empty_spec (fun _ _ => []) "hi" [] rfl

/-- C4: in the stop controller, both exit paths from the Responding phase —
natural completion of the response chain and the stop click cancelling it —
lead to the idle phase with the same control visibility, which is the
construction-time visibility (submit visible, stop hidden); the triggering
event moves to Responding with submit hidden and stop visible. -/
theorem stop_controller_spec (s : StopPhase × (Bool × Bool)) :
    stop_controller_step s .chain_complete = stop_controller_step s .stop_click ∧
    stop_controller_step s .chain_complete = (.idle, construction_vis) ∧
    stop_controller_step s .submit_trigger = (.responding, (false, true)) :=
  ⟨rfl, rfl, rfl⟩

/-- C5: the API entry point branches exactly as the UI adapter —
`_api_submit_fn` returns `(fn m H, H ++ [(m, fn m H)])`, the histories
`_api_stream_fn` produces coincide pointwise with the histories
`_stream_fn` emits on the same `fn`, `m`, `H` (with the pending turn
appended), and in every produced pair the response component is the
response of the last turn of the produced history. -/
theorem api_adapters_spec (fn : RespFn) (gfn : StreamFn) (m : String)
    (H : History) :
    api_submit_fn fn m H = (fn m H, H ++ [(m, some (fn m H))]) ∧
    (api_stream_fn gfn m H).map Prod.snd =
      (stream_fn gfn m (H ++ [(m, none)])).map Prod.fst ∧
    (api_stream_fn gfn m H).all
      (fun p => p.2.getLast? == some (m, p.1)) := by
  refine ⟨rfl, ?_, ?_⟩
  · cases hg : gfn m H <;>
      simp [api_stream_fn, stream_fn, dropLast_snoc, hg, Function.comp]
  · cases hg : gfn m H <;>
      simp [api_stream_fn, hg, getLast?_snoc, List.all_map, Function.comp]

/-- C6: on a history ending in the turn `(m, r)`, the retry chain
(`_delete_prev_fn`, then `_display_input`, then the submit or stream
function) removes that turn, stages `m`, re-appends the pending turn, and
re-invokes `fn` on `(m, H)` where `H` is the history without the last turn:
the non-streaming chain ends with history `H ++ [(m, fn m H)]`, and the
streaming chain emits exactly the states whose histories `_stream_fn`
produces from `(m, H ++ [(m, none)])`. -/
theorem retry_chain_spec (fn : RespFn) (gfn : StreamFn) (tb : String)
    (si : Option String) (cb : History) (H : History) (m : String)
    (r : Option String) :
    retry_chain fn ⟨tb, si, cb, H ++ [(m, r)]⟩ =
      ⟨tb, some m, H ++ [(m, some (fn m H))], H ++ [(m, some (fn m H))]⟩ ∧
    retry_stream_chain gfn ⟨tb, si, cb, H ++ [(m, r)]⟩ =
      (stream_fn gfn m (H ++ [(m, none)])).map
        (fun u => ⟨tb, some m, u.1, u.2⟩) := by
  constructor
  · simp [retry_chain, delete_prev_fn, display_input, submit_fn,
      getLast?_snoc, dropLast_snoc]
  · simp [retry_stream_chain, delete_prev_fn, display_input,
      getLast?_snoc, dropLast_snoc]

/-- C7: popping the last turn from the empty history raises no error:
`_delete_prev_fn []` returns the empty history unchanged and stages the
empty string, and the undo chain on an empty history leaves the history
empty, stages the empty string, and sets the textbox to the empty
string. -/
theorem delete_prev_empty_spec :
    delete_prev_fn ([] : History) = ([], "", []) ∧
    ∀ (tb : String) (si : Option String) (cb : History),
      undo_chain ⟨tb, si, cb, []⟩ = ⟨"", some "", [], []⟩ := by
  refine ⟨rfl, fun tb si cb => rfl⟩

/-- C8: from every prior state, the clear chain resets the chat view and
the history state to the empty list and the staged input to the cleared
(`None`) value, in one step whose result does not depend on any response
function or on the prior history, staged input, or view. -/
theorem clear_chain_spec (s : ChatState) :
    clear_chain s = ⟨s.textbox, none, [], []⟩ :=
  rfl

/-- C10: both example-caching handlers invoke `fn` with the empty history:
`_examples_fn` returns `[(m, fn m [])]` and `_examples_stream_fn` yields
one update `[(m, r)]` per element `r` of `fn(m, [])`; for a streaming `fn`
yielding nothing, `_examples_stream_fn` emits zero updates while the main
streaming adapter `_stream_fn` emits one. -/
theorem examples_fn_spec (fn : RespFn) (gfn : StreamFn) (m : String) :
    examples_fn fn m = [(m, some (fn m []))] ∧
    examples_stream_fn gfn m = (gfn m []).map (fun r => [(m, some r)]) ∧
    (gfn m [] = [] →
      examples_stream_fn gfn m = [] ∧
      (stream_fn gfn m [(m, none)]).length = 1) := by
  refine ⟨rfl, rfl, fun h => ⟨?_, ?_⟩⟩
  · simp [examples_stream_fn, h]
  · have h1 : (m, (none : Option String)) :: [] =
        ([] : History) ++ [(m, none)] := rfl
    rw [h1]
    simp [stream_fn, dropLast_snoc, h]

/-- Witness for `examples_fn_spec` at an empty-yield streaming function. -/
theorem examples_fn_spec_witness :
    examples_stream_fn (fun _ _ => []) "hi" = [] ∧
    (stream_fn (fun _ _ => []) "hi" [("hi", none)]).length = 1 :=
  (examples_fn_spec (fun _ _ => "x") (fun _ _ => []) "hi").2.2 rfl

/-- C9: for a caller-supplied history object at a valid location `l`,
`_api_submit_fn` returns that very object (`l` itself) after appending the
new turn to it in place, whereas `_api_stream_fn` and `_stream_fn` leave
the object at `l` unchanged and every history they yield is a freshly
allocated object distinct from `l`. -/
theorem api_frame_spec (fn : RespFn) (gfn : StreamFn) (m : String) (l : Loc)
    (h : PyHeap) (hl : l < h.cells.length) :
    ((api_submit_fn_heap fn m l h).1.2 = l ∧
      (api_submit_fn_heap fn m l h).2.get l =
        h.get l ++ [(m, some (fn m (h.get l)))]) ∧
    ((api_stream_fn_heap gfn m l h).2.get l = h.get l ∧
      (api_stream_fn_heap gfn m l h).1.all (fun p => p.2 != l)) ∧
    ((stream_fn_heap gfn m l h).2.get l = h.get l ∧
      (stream_fn_heap gfn m l h).1.all
        (fun p => p.1 != l && p.2 != l)) := by
  have hl1 : l < ((h.alloc ((h.get l).dropLast)).2).cells.length := by
    rw [PyHeap.length_alloc]; exact Nat.lt_succ_of_lt hl
  refine ⟨⟨rfl, ?_⟩, ⟨?_, ?_⟩, ⟨?_, ?_⟩⟩
  · exact PyHeap.get_set_self h l _ hl
  · exact api_stream_yields_get m l _ h l hl
  · rw [List.all_eq_true]
    intro p hp
    have h2 := api_stream_yields_fresh m l _ h p hp
    have h3 : p.2 ≠ l := fun he => Nat.not_lt.mpr (he ▸ h2) hl
    simpa using h3
  · simp only [stream_fn_heap]
    rw [stream_updates_get _ _ _ _ l hl1]
    exact PyHeap.get_alloc_of_lt h _ l hl
  · rw [List.all_eq_true]
    intro p hp
    have h2 := stream_updates_fresh m _ _ _ p hp
    rw [PyHeap.length_alloc] at h2
    have h3 : p.1 ≠ l := fun he =>
      Nat.not_lt.mpr (Nat.le_of_succ_le (he ▸ h2.1)) hl
    have h4 : p.2 ≠ l := fun he =>
      Nat.not_lt.mpr (Nat.le_of_succ_le (he ▸ h2.2)) hl
    simp [h3, h4]

/-- Witness for `api_frame_spec` on a one-cell heap. -/
theorem api_frame_spec_witness :
    (0 : Loc) < (PyHeap.mk [[("u", some "v")]]).cells.length ∧
    (((api_submit_fn_heap (fun _ _ => "x") "m" 0 ⟨[[("u", some "v")]]⟩).1.2 = 0 ∧
      (api_submit_fn_heap (fun _ _ => "x") "m" 0 ⟨[[("u", some "v")]]⟩).2.get 0 =
        [("u", some "v")] ++ [("m", some "x")]) ∧
    ((api_stream_fn_heap (fun _ _ => ["a"]) "m" 0 ⟨[[("u", some "v")]]⟩).2.get 0 =
        [("u", some "v")] ∧
      (api_stream_fn_heap (fun _ _ => ["a"]) "m" 0 ⟨[[("u", some "v")]]⟩).1.all
        (fun p => p.2 != 0)) ∧
    ((stream_fn_heap (fun _ _ => ["a"]) "m" 0 ⟨[[("u", some "v")]]⟩).2.get 0 =
        [("u", some "v")] ∧
      (stream_fn_heap (fun _ _ => ["a"]) "m" 0 ⟨[[("u", some "v")]]⟩).1.all
        (fun p => p.1 != 0 && p.2 != 0))) :=
  ⟨by decide,
    api_frame_spec (fun _ _ => "x") (fun _ _ => ["a"]) "m" 0
      ⟨[[("u", some "v")]]⟩ (by decide)⟩

end ChatInterface
